import Mathlib

/-!
# Auto-scan controller of rx5808-pro-diversity (`state_auto.cpp`)

Shallow embedding of the scan / peak-search state machine: the module-scoped
statics become one record, `onTick` and `onButtonChange` become functions on
that record.  `uint8_t` values are natural numbers, and every assignment to a
`uint8_t` goes through `u8` (reduction modulo 256).  The constants
`CHANNELS_SIZE` and `RSSI_SEEK_TRESHOLD` are declared in headers and are
parameters here; `Receiver::rssiA` is the reading passed to each tick.

Line 47 stores `peaks[peaksIndex]` without a bounds test.  A store at an index
outside the `PEAK_LOOKAHEAD`-element array is kept in the list of actions of the
tick as `Call.outOfBoundsStore`; it leaves the array as it is and is taken not
to alter any other of the statics, and the tick goes on as the source does.
-/

namespace StateAuto

/-- Conversion of an integer value to `uint8_t`. -/
def u8 (z : Int) : Nat := (z % 256).toNat

/-- The enum `ScanDirection : int8_t`. -/
inductive ScanDirection where
  | UP
  | DOWN
deriving DecidableEq, Repr

/-- The cast `static_cast<int8_t>(direction)`: `UP = 1`, `DOWN = -1`. -/
def ScanDirection.toInt8 : ScanDirection → Int
  | ScanDirection.UP => 1
  | ScanDirection.DOWN => -1

/-- The size of the look-ahead buffer, `#define PEAK_LOOKAHEAD 4`. -/
def PEAK_LOOKAHEAD : Nat := 4

/-- The module-scoped statics of `state_auto.cpp`. -/
structure AutoState where
  scanning : Bool
  direction : ScanDirection
  forceNext : Bool
  orderedChanelIndex : Nat
  scanningPeak : Bool
  peakChannelIndex : Nat
  peaks : List Nat
deriving DecidableEq, Repr

/-- The static initialisers (lines 20-29). -/
def initialState : AutoState :=
  { scanning := true
    direction := ScanDirection.UP
    forceNext := false
    orderedChanelIndex := 0
    scanningPeak := false
    peakChannelIndex := 0
    peaks := List.replicate PEAK_LOOKAHEAD 0 }

/-- What a handler does besides updating the statics, in program order: the
calls made to the collaborators, where `setChannel i` stands for
`Receiver::setChannel(Channels::getOrderedIndex(i))`, and `outOfBoundsStore i v`
for a store `peaks[i] = v` whose index `i` is outside the array. -/
inductive Call where
  | waitForStableRssi
  | setChannel (orderedIndex : Nat)
  | needUpdate
  | switchStateMenu
  | outOfBoundsStore (index value : Nat)
deriving DecidableEq, Repr

/-- Body of the maximum loop (lines 54-58); the accumulator is
`(largestPeak, largestPeakIndex)`. -/
def peakLoopBody (peaks : List Nat) (acc : Nat × Nat) (i : Nat) : Nat × Nat :=
  let peak := peaks.getD i 0
  if peak > acc.1 then (peak, i) else acc

/-- The maximum loop (lines 51-59): `(largestPeak, largestPeakIndex)` after
`i` has run over `0 .. PEAK_LOOKAHEAD - 1`, both starting at `0`. -/
def largestPeakLoop (peaks : List Nat) : Nat × Nat :=
  (List.range PEAK_LOOKAHEAD).foldl (peakLoopBody peaks) (0, 0)

/-- The value of `largestPeakIndex` after the loop. -/
def largestPeakIndex (peaks : List Nat) : Nat := (largestPeakLoop peaks).2

/-- The reset loop (lines 76-77): `peaks[i] = 0` for `i` in
`0 .. PEAK_LOOKAHEAD - 1`. -/
def clearPeaks (peaks : List Nat) : List Nat :=
  (List.range PEAK_LOOKAHEAD).foldl (fun p i => p.set i 0) peaks

/-- The index update of the sweep branch (lines 79-83). -/
def sweepIndex (CHANNELS_SIZE : Nat) (d : ScanDirection) (orderedChanelIndex : Nat) : Nat :=
  let i1 := u8 ((orderedChanelIndex : Int) + d.toInt8)
  let i2 := if i1 = 255 then u8 ((CHANNELS_SIZE : Int) - 1) else i1
  if i2 ≥ CHANNELS_SIZE then 0 else i2

/-- The array after the store `peaks[peaksIndex] = value` of line 47.  A store
at an index outside the array leaves the array as it is. -/
def storePeak (peaks : List Nat) (peaksIndex value : Nat) : List Nat :=
  if peaksIndex < PEAK_LOOKAHEAD then peaks.set peaksIndex value else peaks

/-- The action recorded for the store `peaks[peaksIndex] = value` of line 47:
none when the index is inside the array, `outOfBoundsStore` otherwise. -/
def storeActions (peaksIndex value : Nat) : List Call :=
  if peaksIndex < PEAK_LOOKAHEAD then [] else [Call.outOfBoundsStore peaksIndex value]

/-- The tick `StateMachine::AutoStateHandler::onTick` (lines 42-95) with
`Receiver::rssiA = rssiA`: the new state and the actions of the tick. -/
def onTick (CHANNELS_SIZE RSSI_SEEK_TRESHOLD : Nat) (s : AutoState) (rssiA : Nat) :
    AutoState × List Call :=
  if s.scanningPeak then
    let peaksIndex := u8 ((s.peakChannelIndex : Int) - s.orderedChanelIndex)
    let peaks := storePeak s.peaks peaksIndex (u8 rssiA)
    let peakChannelIndex := u8 ((s.peakChannelIndex : Int) + 1)
    if peaksIndex ≥ PEAK_LOOKAHEAD ∨ peakChannelIndex ≥ CHANNELS_SIZE then
      let peakChannel := u8 ((s.orderedChanelIndex : Int) + largestPeakIndex peaks)
      ({ s with
           peaks := peaks
           peakChannelIndex := peakChannelIndex
           orderedChanelIndex := peakChannel
           scanningPeak := false },
       [Call.waitForStableRssi] ++ storeActions peaksIndex (u8 rssiA)
         ++ [Call.setChannel peakChannel, Call.needUpdate])
    else
      ({ s with peaks := peaks, peakChannelIndex := peakChannelIndex },
       [Call.waitForStableRssi] ++ storeActions peaksIndex (u8 rssiA)
         ++ [Call.setChannel peakChannelIndex, Call.needUpdate])
  else if s.scanning then
    if !s.forceNext && decide (rssiA ≥ RSSI_SEEK_TRESHOLD) then
      ({ s with
           scanning := false
           scanningPeak := true
           peakChannelIndex := s.orderedChanelIndex
           peaks := clearPeaks s.peaks },
       [Call.waitForStableRssi, Call.needUpdate])
    else
      let orderedChanelIndex := sweepIndex CHANNELS_SIZE s.direction s.orderedChanelIndex
      ({ s with orderedChanelIndex := orderedChanelIndex, forceNext := false },
       [Call.waitForStableRssi, Call.setChannel orderedChanelIndex, Call.needUpdate])
  else
    (s, [Call.waitForStableRssi, Call.needUpdate])

/-- The handler `onButtonChange` (lines 98-110); `up`, `down`, `mode` are the
values of `ButtonState::get` for the three buttons. -/
def onButtonChange (s : AutoState) (up down mode : Bool) : AutoState × List Call :=
  if up then
    ({ s with scanning := true, forceNext := true, direction := ScanDirection.UP }, [])
  else if down then
    ({ s with scanning := true, forceNext := true, direction := ScanDirection.DOWN }, [])
  else if mode then
    (s, [Call.switchStateMenu])
  else
    (s, [])

/-- Consecutive ticks with the readings `rs` and no button event in between. -/
def runTicks (CHANNELS_SIZE RSSI_SEEK_TRESHOLD : Nat) : AutoState → List Nat → AutoState
  | s, [] => s
  | s, r :: rs =>
    runTicks CHANNELS_SIZE RSSI_SEEK_TRESHOLD (onTick CHANNELS_SIZE RSSI_SEEK_TRESHOLD s r).1 rs

/-- What the host delivers to the handler: a tick with the current reading, or
a button-change notification with the three button states. -/
inductive Event where
  | tick (rssiA : Nat)
  | buttonChange (up down mode : Bool)
deriving DecidableEq, Repr

/-- The state after one event. -/
def step (CHANNELS_SIZE RSSI_SEEK_TRESHOLD : Nat) (s : AutoState) : Event → AutoState
  | Event.tick rssiA => (onTick CHANNELS_SIZE RSSI_SEEK_TRESHOLD s rssiA).1
  | Event.buttonChange up down mode => (onButtonChange s up down mode).1

/-- The state after a sequence of events. -/
def runEvents (CHANNELS_SIZE RSSI_SEEK_TRESHOLD : Nat) : AutoState → List Event → AutoState
  | s, [] => s
  | s, e :: es =>
    runEvents CHANNELS_SIZE RSSI_SEEK_TRESHOLD (step CHANNELS_SIZE RSSI_SEEK_TRESHOLD s e) es

/-- States reachable from `s0` by ticks and button-change events. -/
inductive ReachableFrom (CHANNELS_SIZE RSSI_SEEK_TRESHOLD : Nat) (s0 : AutoState) :
    AutoState → Prop where
  | start : ReachableFrom CHANNELS_SIZE RSSI_SEEK_TRESHOLD s0 s0
  | next (s : AutoState) (e : Event) :
      ReachableFrom CHANNELS_SIZE RSSI_SEEK_TRESHOLD s0 s →
      ReachableFrom CHANNELS_SIZE RSSI_SEEK_TRESHOLD s0
        (step CHANNELS_SIZE RSSI_SEEK_TRESHOLD s e)

/-- States reachable from the static initialisers. -/
def Reachable (CHANNELS_SIZE RSSI_SEEK_TRESHOLD : Nat) (s : AutoState) : Prop :=
  ReachableFrom CHANNELS_SIZE RSSI_SEEK_TRESHOLD initialState s

/-- The state in which a peak search has just been entered at ordered index
`i` (what lines 72-77 leave behind), the other fields taken from `s`. -/
def peakEntry (s : AutoState) (i : Nat) : AutoState :=
  { s with
      scanning := false
      scanningPeak := true
      orderedChanelIndex := i
      peakChannelIndex := i
      peaks := List.replicate PEAK_LOOKAHEAD 0 }

/-- The states after each of the consecutive ticks with readings `rs`. -/
def tickTrace (CHANNELS_SIZE RSSI_SEEK_TRESHOLD : Nat) : AutoState → List Nat → List AutoState
  | _, [] => []
  | s, r :: rs =>
    (onTick CHANNELS_SIZE RSSI_SEEK_TRESHOLD s r).1
      :: tickTrace CHANNELS_SIZE RSSI_SEEK_TRESHOLD
          (onTick CHANNELS_SIZE RSSI_SEEK_TRESHOLD s r).1 rs

/-- The ordered channel index after each of the consecutive ticks. -/
def visitedIndices (CHANNELS_SIZE RSSI_SEEK_TRESHOLD : Nat) (s : AutoState) (rs : List Nat) :
    List Nat :=
  (tickTrace CHANNELS_SIZE RSSI_SEEK_TRESHOLD s rs).map AutoState.orderedChanelIndex

/-- The winning offset as the specification words it: `k` is an offset of the
buffer, no sample at offsets `0 .. PEAK_LOOKAHEAD - 1` exceeds the one at `k`,
and every sample before `k` is strictly smaller (first occurrence wins). -/
def IsFirstMaxOffset (b : List Nat) (k : Nat) : Prop :=
  k < PEAK_LOOKAHEAD
    ∧ (∀ i, i < PEAK_LOOKAHEAD → b.getD i 0 ≤ b.getD k 0)
    ∧ (∀ i, i < k → b.getD i 0 < b.getD k 0)

instance (b : List Nat) (k : Nat) : Decidable (IsFirstMaxOffset b k) := by
  unfold IsFirstMaxOffset; infer_instance

/-- An UP or DOWN press delivered while a peak search is in progress. -/
def pressDuringPeak (s : AutoState) : Event → Bool
  | Event.tick _ => false
  | Event.buttonChange up down _ => s.scanningPeak && (up || down)

/-- States reachable from the static initialisers by ticks and button-change
events in which UP and DOWN are not pressed while a peak search is running. -/
inductive ReachableNoPeakPress (CHANNELS_SIZE RSSI_SEEK_TRESHOLD : Nat) : AutoState → Prop where
  | start : ReachableNoPeakPress CHANNELS_SIZE RSSI_SEEK_TRESHOLD initialState
  | next (s : AutoState) (e : Event) :
      ReachableNoPeakPress CHANNELS_SIZE RSSI_SEEK_TRESHOLD s →
      pressDuringPeak s e = false →
      ReachableNoPeakPress CHANNELS_SIZE RSSI_SEEK_TRESHOLD
        (step CHANNELS_SIZE RSSI_SEEK_TRESHOLD s e)

/-- The index reached from `i` by one sweep position in direction `d`,
modulo `N`. -/
def nextModN (N : Nat) (d : ScanDirection) (i : Nat) : Nat :=
  match d with
  | ScanDirection.UP => (i + 1) % N
  | ScanDirection.DOWN => (i + (N - 1)) % N

/-- The index reached from `i` after `k` sweep positions in direction `d`,
modulo `N` (for `k ≤ N`). -/
def indexAfter (N : Nat) (d : ScanDirection) (i k : Nat) : Nat :=
  match d with
  | ScanDirection.UP => (i + k) % N
  | ScanDirection.DOWN => (i + (N - k)) % N

/-- Invariant of the peak search: the ordered index is below `N`, and while a
search runs over a table of at most 255 channels the peak index is at or after
the start index, below `N`, and the slots of the buffer from the current offset
on are still zero. -/
def PeakInv (N : Nat) (s : AutoState) : Prop :=
  s.orderedChanelIndex < N
    ∧ (s.scanningPeak = true → N ≤ 255 →
        s.orderedChanelIndex ≤ s.peakChannelIndex ∧ s.peakChannelIndex < N
          ∧ ∀ i, i < PEAK_LOOKAHEAD → s.peakChannelIndex - s.orderedChanelIndex ≤ i →
              s.peaks.getD i 0 = 0)

/-- The ordered index the receiver is tuned to after the calls `cs`, when it
was tuned to `tuned` before them. -/
def tunedAfter (tuned : Nat) (cs : List Call) : Nat :=
  cs.foldl
    (fun t c =>
      match c with
      | Call.setChannel i => i
      | _ => t)
    tuned

/-- Consecutive ticks, with no button event, in which the reading depends only
on the ordered index the receiver is tuned to: `n` ticks from state `s` with
the receiver on `tuned`.  The result is the final state with the index tuned
to. -/
def runTuned (CHANNELS_SIZE RSSI_SEEK_TRESHOLD : Nat) (reading : Nat → Nat) :
    Nat → AutoState → Nat → AutoState × Nat
  | 0, s, tuned => (s, tuned)
  | n + 1, s, tuned =>
    runTuned CHANNELS_SIZE RSSI_SEEK_TRESHOLD reading n
      (onTick CHANNELS_SIZE RSSI_SEEK_TRESHOLD s (reading tuned)).1
      (tunedAfter tuned (onTick CHANNELS_SIZE RSSI_SEEK_TRESHOLD s (reading tuned)).2)

/-- Readings of the end-to-end scenario, per ordered index: 10, 20, 95 on the
indices 0, 1, 2 and 50, 60, 70, 30, 40 on the indices 3 to 7. -/
def scenarioReading (i : Nat) : Nat := [10, 20, 95, 50, 60, 70, 30, 40].getD i 0

/-- The calls of `cs` that tune the receiver. -/
def tuneCalls (cs : List Call) : List Nat :=
  cs.filterMap
    (fun c =>
      match c with
      | Call.setChannel i => some i
      | _ => none)

/-! ## Reachability -/

theorem reachableFrom_runEvents (N T : Nat) (s0 : AutoState) (es : List Event) :
    ∀ s : AutoState, ReachableFrom N T s0 s → ReachableFrom N T s0 (runEvents N T s es) := by
  induction es with
  | nil => intro s hs; exact hs
  | cons e es ih =>
    intro s hs
    exact ih (step N T s e) (ReachableFrom.next s e hs)

theorem reachable_of_runEvents (N T : Nat) (es : List Event) (t : AutoState)
    (h : runEvents N T initialState es = t) : Reachable N T t :=
  h ▸ reachableFrom_runEvents N T initialState es initialState ReachableFrom.start

theorem clearPeaks_length (l : List Nat) : (clearPeaks l).length = l.length := by
  have h : clearPeaks l = (((l.set 0 0).set 1 0).set 2 0).set 3 0 := rfl
  rw [h]
  simp only [List.length_set]

theorem storePeak_length (l : List Nat) (j v : Nat) : (storePeak l j v).length = l.length := by
  unfold storePeak
  split_ifs
  · simp only [List.length_set]
  · rfl

theorem onTick_peaks_length (N T : Nat) (s : AutoState) (r : Nat) :
    (onTick N T s r).1.peaks.length = s.peaks.length := by
  unfold onTick
  dsimp only
  split_ifs <;> dsimp only <;>
    first | rfl | exact storePeak_length _ _ _ | exact clearPeaks_length _

theorem onButtonChange_peaks (s : AutoState) (up down mode : Bool) :
    (onButtonChange s up down mode).1.peaks = s.peaks := by
  unfold onButtonChange
  split_ifs <;> rfl

/-- In every reachable state the buffer has its `PEAK_LOOKAHEAD` elements. -/
theorem reachable_peaks_length (N T : Nat) (s : AutoState) (hr : Reachable N T s) :
    s.peaks.length = PEAK_LOOKAHEAD := by
  induction hr with
  | start => rfl
  | next s e _ ih =>
    cases e with
    | tick r =>
      simp only [step]
      rw [onTick_peaks_length N T s r]
      exact ih
    | buttonChange up down mode =>
      simp only [step]
      rw [onButtonChange_peaks]
      exact ih

/-! ## The look-ahead bound of the peak search -/

/-- C1 (the code departs from it): with `CHANNELS_SIZE = 8` and a peak search
just entered at ordered index 2, four ticks record four samples and the search
is still running: the tick that records at offset `PEAK_LOOKAHEAD - 1 = 3` does
not conclude, because line 50 tests `peaksIndex >= PEAK_LOOKAHEAD`.  The state
after these four ticks has offset 4, and a fifth tick stores its sample at
`peaks[4]`, outside the buffer, and only then concludes. -/
theorem peak_search_not_concluded_after_lookahead_ticks :
    runTicks 8 80 (peakEntry initialState 2) [95, 50, 60, 70]
        = { scanning := false
            direction := ScanDirection.UP
            forceNext := false
            orderedChanelIndex := 2
            scanningPeak := true
            peakChannelIndex := 6
            peaks := [95, 50, 60, 70] }
      ∧ u8 ((6 : Int) - 2) = PEAK_LOOKAHEAD
      ∧ onTick 8 80 { scanning := false
                      direction := ScanDirection.UP
                      forceNext := false
                      orderedChanelIndex := 2
                      scanningPeak := true
                      peakChannelIndex := 6
                      peaks := [95, 50, 60, 70] } 40
        = ({ scanning := false
             direction := ScanDirection.UP
             forceNext := false
             orderedChanelIndex := 2
             scanningPeak := false
             peakChannelIndex := 7
             peaks := [95, 50, 60, 70] },
           [Call.waitForStableRssi, Call.outOfBoundsStore 4 40, Call.setChannel 2,
            Call.needUpdate]) := by
  refine ⟨rfl, rfl, rfl⟩

/-- C2 (the code departs from it): with `CHANNELS_SIZE = 8` and threshold 80,
the events "tick reading 90" (which enters the peak search at index 0) and
four more ticks lead from the initial state to a state whose Scanning-Peak flag
is set and whose offset `peakChannelIndex - orderedChanelIndex` is 4, which is
not below `PEAK_LOOKAHEAD`; the next tick, whatever its reading, stores at
`peaks[4]`. -/
theorem reachable_peak_offset_out_of_range :
    ∃ s : AutoState, Reachable 8 80 s ∧ s.scanningPeak = true
      ∧ u8 ((s.peakChannelIndex : Int) - s.orderedChanelIndex) = 4
      ∧ ¬ u8 ((s.peakChannelIndex : Int) - s.orderedChanelIndex) < PEAK_LOOKAHEAD
      ∧ ∀ r : Nat,
          (onTick 8 80 s r).2
            = [Call.waitForStableRssi, Call.outOfBoundsStore 4 (u8 r), Call.setChannel 3,
               Call.needUpdate] := by
  refine ⟨{ scanning := false
            direction := ScanDirection.UP
            forceNext := false
            orderedChanelIndex := 0
            scanningPeak := true
            peakChannelIndex := 4
            peaks := [30, 31, 32, 33] }, ?_, rfl, rfl, by decide, fun r => rfl⟩
  exact reachable_of_runEvents 8 80
    [Event.tick 90, Event.tick 30, Event.tick 31, Event.tick 32, Event.tick 33] _ rfl

/-! ## Selection of the peak -/

theorem largestPeakLoop_unfold (b : List Nat) :
    largestPeakLoop b
      = peakLoopBody b (peakLoopBody b (peakLoopBody b (peakLoopBody b (0, 0) 0) 1) 2) 3 := rfl

theorem largestPeakIndex_isFirstMax (b : List Nat) :
    IsFirstMaxOffset b (largestPeakIndex b) := by
  unfold IsFirstMaxOffset largestPeakIndex PEAK_LOOKAHEAD
  rw [largestPeakLoop_unfold]
  unfold peakLoopBody
  simp only []
  split_ifs <;> refine ⟨by simp, fun i hi => ?_, fun i hi => ?_⟩ <;>
    interval_cases i <;> simp only [] at * <;> omega

/-- A tick of the peak search on which the test of line 50 holds. -/
theorem onTick_conclude (N T : Nat) (s : AutoState) (r : Nat)
    (hpeak : s.scanningPeak = true)
    (hconc : u8 ((s.peakChannelIndex : Int) - s.orderedChanelIndex) ≥ PEAK_LOOKAHEAD
              ∨ u8 ((s.peakChannelIndex : Int) + 1) ≥ N) :
    onTick N T s r
      = ({ s with
             peaks := storePeak s.peaks
               (u8 ((s.peakChannelIndex : Int) - s.orderedChanelIndex)) (u8 r)
             peakChannelIndex := u8 ((s.peakChannelIndex : Int) + 1)
             orderedChanelIndex :=
               u8 ((s.orderedChanelIndex : Int)
                 + largestPeakIndex
                     (storePeak s.peaks
                       (u8 ((s.peakChannelIndex : Int) - s.orderedChanelIndex)) (u8 r)))
             scanningPeak := false },
         [Call.waitForStableRssi]
           ++ storeActions (u8 ((s.peakChannelIndex : Int) - s.orderedChanelIndex)) (u8 r)
           ++ [Call.setChannel
                 (u8 ((s.orderedChanelIndex : Int)
                   + largestPeakIndex
                       (storePeak s.peaks
                         (u8 ((s.peakChannelIndex : Int) - s.orderedChanelIndex)) (u8 r)))),
               Call.needUpdate]) := by
  unfold onTick
  rw [if_pos hpeak]
  dsimp only
  rw [if_pos hconc]

/-- A tick of the peak search on which the test of line 50 fails. -/
theorem onTick_continue (N T : Nat) (s : AutoState) (r : Nat)
    (hpeak : s.scanningPeak = true)
    (hnc : ¬ (u8 ((s.peakChannelIndex : Int) - s.orderedChanelIndex) ≥ PEAK_LOOKAHEAD
              ∨ u8 ((s.peakChannelIndex : Int) + 1) ≥ N)) :
    onTick N T s r
      = ({ s with
             peaks := s.peaks.set (u8 ((s.peakChannelIndex : Int) - s.orderedChanelIndex))
               (u8 r)
             peakChannelIndex := u8 ((s.peakChannelIndex : Int) + 1) },
         [Call.waitForStableRssi, Call.setChannel (u8 ((s.peakChannelIndex : Int) + 1)),
          Call.needUpdate]) := by
  have hj : u8 ((s.peakChannelIndex : Int) - s.orderedChanelIndex) < PEAK_LOOKAHEAD := by
    by_contra h
    exact hnc (Or.inl (Nat.le_of_not_lt h))
  unfold onTick
  rw [if_pos hpeak]
  dsimp only
  rw [if_neg hnc]
  simp only [storePeak, storeActions, if_pos hj, List.append_nil, List.singleton_append]

theorem tuneCalls_conclude (j v i : Nat) :
    tuneCalls ([Call.waitForStableRssi] ++ storeActions j v
        ++ [Call.setChannel i, Call.needUpdate]) = [i] := by
  unfold storeActions
  split_ifs <;> rfl

theorem sweepIndex_lt (N : Nat) (hN : 1 ≤ N) (d : ScanDirection) (i : Nat) :
    sweepIndex N d i < N := by
  unfold sweepIndex
  simp only []
  split_ifs <;> omega

theorem sweepIndex_up (N i : Nat) (hN : N ≤ 254 ∨ N = 256) (hi : i < N) :
    sweepIndex N ScanDirection.UP i = (i + 1) % N := by
  have hmod : (i + 1) % N = if i + 1 = N then 0 else i + 1 := by
    split_ifs with h
    · rw [h, Nat.mod_self]
    · exact Nat.mod_eq_of_lt (by omega)
  rw [hmod]
  unfold sweepIndex u8 ScanDirection.toInt8
  simp only []
  split_ifs <;> omega

theorem sweepIndex_down (N i : Nat) (hN : N ≤ 254 ∨ N = 256) (hi : i < N) :
    sweepIndex N ScanDirection.DOWN i = (i + (N - 1)) % N := by
  have hmod : (i + (N - 1)) % N = if i = 0 then N - 1 else i - 1 := by
    split_ifs with h
    · subst h
      rw [Nat.zero_add]
      exact Nat.mod_eq_of_lt (by omega)
    · have : i + (N - 1) = (i - 1) + N := by omega
      rw [this, Nat.add_mod_right]
      exact Nat.mod_eq_of_lt (by omega)
  rw [hmod]
  unfold sweepIndex u8 ScanDirection.toInt8
  simp only []
  split_ifs <;> omega

theorem sweepIndex_eq_nextModN (N i : Nat) (hN : N ≤ 254 ∨ N = 256) (hi : i < N)
    (d : ScanDirection) : sweepIndex N d i = nextModN N d i := by
  cases d
  · exact sweepIndex_up N i hN hi
  · exact sweepIndex_down N i hN hi

theorem onTick_sweep (N T : Nat) (s : AutoState) (r : Nat)
    (hscan : s.scanning = true) (hpeak : s.scanningPeak = false)
    (hno : s.forceNext = true ∨ r < T) :
    onTick N T s r
      = ({ s with
             orderedChanelIndex := sweepIndex N s.direction s.orderedChanelIndex
             forceNext := false },
         [Call.waitForStableRssi,
          Call.setChannel (sweepIndex N s.direction s.orderedChanelIndex),
          Call.needUpdate]) := by
  unfold onTick
  have hc : (!s.forceNext && decide (r ≥ T)) = false := by
    rcases hno with h | h
    · simp [h]
    · simp [h]
  simp [hpeak, hscan, hc]

theorem onTick_lock (N T : Nat) (s : AutoState) (r : Nat)
    (hscan : s.scanning = true) (hpeak : s.scanningPeak = false)
    (hforce : s.forceNext = false) (hr : T ≤ r) :
    onTick N T s r
      = ({ s with
             scanning := false
             scanningPeak := true
             peakChannelIndex := s.orderedChanelIndex
             peaks := clearPeaks s.peaks },
         [Call.waitForStableRssi, Call.needUpdate]) := by
  unfold onTick
  simp [hpeak, hscan, hforce, hr]

theorem eq_of_mod_eq (N a b : Nat) (h : a % N = b % N) (hab : a < b + N) (hba : b < a + N) :
    a = b := by
  rcases Nat.le_total a b with hle | hle
  · have hd : N ∣ b - a := (Nat.modEq_iff_dvd' hle).mp h
    have : b - a = 0 := Nat.eq_zero_of_dvd_of_lt hd (by omega)
    omega
  · have hd : N ∣ a - b := (Nat.modEq_iff_dvd' hle).mp h.symm
    have : a - b = 0 := Nat.eq_zero_of_dvd_of_lt hd (by omega)
    omega

theorem indexAfter_one (N : Nat) (d : ScanDirection) (i : Nat) :
    indexAfter N d i 1 = nextModN N d i := by
  cases d <;> rfl

theorem indexAfter_next (N : Nat) (d : ScanDirection) (i k : Nat) (hk : k + 2 ≤ N) :
    indexAfter N d (nextModN N d i) (k + 1) = indexAfter N d i (k + 2) := by
  cases d
  · simp only [indexAfter, nextModN]
    rw [Nat.mod_add_mod]
    congr 1
    omega
  · simp only [indexAfter, nextModN]
    rw [Nat.mod_add_mod]
    have : i + (N - 1) + (N - (k + 1)) = i + (N - (k + 2)) + N := by omega
    rw [this, Nat.add_mod_right]

theorem indexAfter_full (N : Nat) (d : ScanDirection) (i : Nat) (hi : i < N) :
    indexAfter N d i N = i := by
  cases d
  · simp only [indexAfter]
    rw [Nat.add_mod_right]
    exact Nat.mod_eq_of_lt hi
  · simp only [indexAfter]
    rw [Nat.sub_self, Nat.add_zero]
    exact Nat.mod_eq_of_lt hi

theorem indexAfter_lt (N : Nat) (hN : 1 ≤ N) (d : ScanDirection) (i k : Nat) :
    indexAfter N d i k < N := by
  cases d <;> exact Nat.mod_lt _ (by omega)

theorem indexAfter_inj (N : Nat) (d : ScanDirection) (i k l : Nat)
    (hk : k < N) (hl : l < N)
    (h : indexAfter N d i (k + 1) = indexAfter N d i (l + 1)) : k = l := by
  cases d
  · simp only [indexAfter] at h
    have := eq_of_mod_eq N _ _ h (by omega) (by omega)
    omega
  · simp only [indexAfter] at h
    have := eq_of_mod_eq N _ _ h (by omega) (by omega)
    omega

theorem visitedIndices_cons (N T : Nat) (s t : AutoState) (c : List Call) (r : Nat)
    (rs : List Nat) (h : onTick N T s r = (t, c)) :
    visitedIndices N T s (r :: rs) = t.orderedChanelIndex :: visitedIndices N T t rs := by
  simp only [visitedIndices, tickTrace, h, List.map_cons]

theorem visitedIndices_sweep (N T : Nat) (hN : N ≤ 254 ∨ N = 256) :
    ∀ (rs : List Nat) (s : AutoState), s.scanning = true → s.scanningPeak = false →
      s.orderedChanelIndex < N → rs.length ≤ N → (∀ r, r ∈ rs → r < T) →
      visitedIndices N T s rs
        = (List.range rs.length).map
            (fun k => indexAfter N s.direction s.orderedChanelIndex (k + 1)) := by
  intro rs
  induction rs with
  | nil => intro s _ _ _ _ _; rfl
  | cons r rs ih =>
    intro s hscan hpeak hi hlen hlow
    have hN1 : 1 ≤ N := by omega
    have hr : r < T := hlow r (List.mem_cons_self _ _)
    obtain ⟨t, c, htick, hts, htp, htd, hti⟩ :
        ∃ (t : AutoState) (c : List Call), onTick N T s r = (t, c)
          ∧ t.scanning = true ∧ t.scanningPeak = false ∧ t.direction = s.direction
          ∧ t.orderedChanelIndex = sweepIndex N s.direction s.orderedChanelIndex :=
      ⟨_, _, onTick_sweep N T s r hscan hpeak (Or.inr hr), hscan, hpeak, rfl, rfl⟩
    have hlen2 : rs.length + 1 ≤ N := by simpa using hlen
    rw [visitedIndices_cons N T s t c r rs htick]
    rw [ih t hts htp (hti ▸ sweepIndex_lt N hN1 _ _) (by omega)
      (fun x hx => hlow x (List.mem_cons_of_mem _ hx))]
    simp only [List.length_cons]
    rw [List.range_succ_eq_map, List.map_cons, List.map_map]
    rw [htd, hti, sweepIndex_eq_nextModN N _ hN hi]
    congr 1
    apply List.map_congr_left
    intro k hk
    have hk2 : k < rs.length := List.mem_range.mp hk
    simp only [Function.comp]
    exact indexAfter_next N _ _ k (by omega)

theorem count_eq_one_of_cycle (N : Nat) (d : ScanDirection) (i : Nat) (hN : 1 ≤ N) :
    ∀ j, j < N →
      ((List.range N).map (fun k => indexAfter N d i (k + 1))).count j = 1 := by
  intro j hj
  have hnd : ((List.range N).map (fun k => indexAfter N d i (k + 1))).Nodup :=
    List.Nodup.map_on
      (fun x hx y hy h =>
        indexAfter_inj N d i x y (List.mem_range.mp hx) (List.mem_range.mp hy) h)
      (List.nodup_range N)
  have hsub : (List.range N).map (fun k => indexAfter N d i (k + 1)) ⊆ List.range N := by
    intro x hx
    obtain ⟨k, _, hk⟩ := List.mem_map.mp hx
    exact List.mem_range.mpr (hk ▸ indexAfter_lt N hN d i (k + 1))
  have hperm : ((List.range N).map (fun k => indexAfter N d i (k + 1))).Perm (List.range N) :=
    (List.subperm_of_subset hnd hsub).perm_of_length_le (by simp)
  exact List.count_eq_one_of_mem hnd (hperm.mem_iff.mpr (List.mem_range.mpr hj))

/-- C4 (amended): for every channel count `N` with `1 ≤ N ≤ 254` or `N = 256`,
every start index `i < N` and either Direction, `N` consecutive Sweeping ticks
whose readings stay below the threshold visit every ordered index below `N`
exactly once and end on `i`; the index after tick `k + 1` is `i + k + 1` modulo
`N` going UP and `i - (k + 1)` modulo `N` going DOWN, so `N - 1` wraps to `0`
going UP and `0` wraps to `N - 1` going DOWN. -/
theorem sweep_full_cycle (N T : Nat) (hN : N ≤ 254 ∨ N = 256) (s : AutoState)
    (hscan : s.scanning = true) (hpeak : s.scanningPeak = false)
    (hi : s.orderedChanelIndex < N) (rs : List Nat) (hlen : rs.length = N)
    (hlow : ∀ r, r ∈ rs → r < T) :
    ∃ v : List Nat,
      visitedIndices N T s rs = v
        ∧ v.length = N
        ∧ (∀ j, j < N → v.count j = 1)
        ∧ v.getLast? = some s.orderedChanelIndex
        ∧ (∀ k, k < N → v.get? k = some (indexAfter N s.direction s.orderedChanelIndex (k + 1)))
        ∧ sweepIndex N ScanDirection.UP (N - 1) = 0
        ∧ sweepIndex N ScanDirection.DOWN 0 = N - 1 := by
  have hN1 : 1 ≤ N := by omega
  refine ⟨_, visitedIndices_sweep N T hN rs s hscan hpeak hi (by omega) hlow, ?_, ?_, ?_, ?_,
    ?_, ?_⟩
  · simp [hlen]
  · rw [hlen]
    exact count_eq_one_of_cycle N s.direction s.orderedChanelIndex hN1
  · rw [hlen, List.getLast?_eq_getElem?]
    simp only [List.length_map, List.length_range]
    rw [List.getElem?_map, List.getElem?_range (by omega)]
    simp only [Option.map_some', Option.some.injEq]
    rw [Nat.sub_add_cancel hN1]
    exact indexAfter_full N _ _ hi
  · intro k hk
    rw [hlen, List.get?_eq_getElem?, List.getElem?_map, List.getElem?_range hk]
    rfl
  · rw [sweepIndex_up N (N - 1) hN (by omega), Nat.sub_add_cancel hN1, Nat.mod_self]
  · rw [sweepIndex_down N 0 hN (by omega), Nat.zero_add]
    exact Nat.mod_eq_of_lt (by omega)

theorem sweep_full_cycle_witness :
    (3 ≤ 254 ∨ 3 = 256) ∧ initialState.scanning = true ∧ initialState.scanningPeak = false
      ∧ initialState.orderedChanelIndex < 3 ∧ [10, 20, 30].length = 3
      ∧ (∀ r, r ∈ [10, 20, 30] → r < 80)
      ∧ ∃ v : List Nat,
          visitedIndices 3 80 initialState [10, 20, 30] = v
            ∧ v.length = 3
            ∧ (∀ j, j < 3 → v.count j = 1)
            ∧ v.getLast? = some initialState.orderedChanelIndex
            ∧ (∀ k, k < 3 → v.get? k
                = some (indexAfter 3 initialState.direction initialState.orderedChanelIndex (k + 1)))
            ∧ sweepIndex 3 ScanDirection.UP (3 - 1) = 0
            ∧ sweepIndex 3 ScanDirection.DOWN 0 = 3 - 1 :=
  ⟨by decide, rfl, rfl, by decide, rfl, by decide,
    sweep_full_cycle 3 80 (by decide) initialState rfl rfl (by decide) [10, 20, 30] rfl
      (by decide)⟩

theorem visitedIndices_stuck (T : Nat) :
    ∀ (rs : List Nat) (s : AutoState), s.scanning = true → s.scanningPeak = false →
      s.direction = ScanDirection.UP → s.orderedChanelIndex = 254 → (∀ r, r ∈ rs → r < T) →
      visitedIndices 255 T s rs = List.replicate rs.length 254 := by
  intro rs
  induction rs with
  | nil => intro s _ _ _ _ _; rfl
  | cons r rs ih =>
    intro s hscan hpeak hd hi hlow
    have hr : r < T := hlow r (List.mem_cons_self _ _)
    obtain ⟨t, c, htick, hts, htp, htd, hti⟩ :
        ∃ (t : AutoState) (c : List Call), onTick 255 T s r = (t, c)
          ∧ t.scanning = true ∧ t.scanningPeak = false ∧ t.direction = s.direction
          ∧ t.orderedChanelIndex = sweepIndex 255 s.direction s.orderedChanelIndex :=
      ⟨_, _, onTick_sweep 255 T s r hscan hpeak (Or.inr hr), hscan, hpeak, rfl, rfl⟩
    have hti2 : t.orderedChanelIndex = 254 := by rw [hti, hd, hi]; rfl
    rw [visitedIndices_cons 255 T s t c r rs htick,
      ih t hts htp (htd.trans hd) hti2 (fun x hx => hlow x (List.mem_cons_of_mem _ hx)), hti2]
    rfl

/-- C4 fails for `CHANNELS_SIZE = 255`: sweeping UP from index 254, the
increment gives 255, which line 80 takes for the wrapped-down value and
replaces by `CHANNELS_SIZE - 1 = 254`; 255 ticks all stay on 254 and index 0 is
never visited. -/
theorem sweep_up_stuck_for_255_channels :
    visitedIndices 255 80 { initialState with orderedChanelIndex := 254 } (List.replicate 255 10)
        = List.replicate 255 254
      ∧ (List.replicate 255 254).count 0 = 0
      ∧ sweepIndex 255 ScanDirection.UP (255 - 1) = 254 := by
  refine ⟨?_, ?_, rfl⟩
  · have h := visitedIndices_stuck 80 (List.replicate 255 10)
      { initialState with orderedChanelIndex := 254 } rfl rfl rfl rfl
      (fun r hr => by rw [List.eq_of_mem_replicate hr]; decide)
    rw [List.length_replicate] at h
    exact h
  · rw [List.count_replicate]
    rfl

/-! ## Button presses during a peak search -/

theorem onTick_peak_flags (N T : Nat) (s : AutoState) (r : Nat) (sc fn : Bool)
    (d : ScanDirection) (hpeak : s.scanningPeak = true) :
    onTick N T { s with scanning := sc, forceNext := fn, direction := d } r
      = ({ (onTick N T s r).1 with scanning := sc, forceNext := fn, direction := d },
         (onTick N T s r).2) := by
  unfold onTick
  simp only [hpeak, if_true]
  split_ifs <;> rfl

theorem onButtonChange_press (s : AutoState) (up down mode : Bool)
    (hpress : up = true ∨ down = true) :
    (onButtonChange s up down mode).1
      = { s with
            scanning := true
            forceNext := true
            direction := if up then ScanDirection.UP else ScanDirection.DOWN } := by
  unfold onButtonChange
  rcases hpress with h | h
  · subst h; rfl
  · subst h; cases up <;> rfl

theorem getD_set_self (l : List Nat) : ∀ (j v : Nat), j < l.length →
    (l.set j v).getD j 0 = v := by
  induction l with
  | nil => intro j v h; exact absurd h (Nat.not_lt_zero _)
  | cons a l ih =>
    intro j v h
    cases j with
    | zero => rfl
    | succ j =>
      simp only [List.set_cons_succ, List.getD_cons_succ]
      exact ih j v (Nat.lt_of_succ_lt_succ h)

/-- C6 fails: with `CHANNELS_SIZE = 8` and threshold 80, a tick reading 90
enters the peak search and an UP press then sets the Scanning flag again; the
state reached has both flags true. -/
theorem reachable_both_flags_true :
    ∃ s : AutoState, Reachable 8 80 s ∧ s.scanning = true ∧ s.scanningPeak = true := by
  refine ⟨{ scanning := true
            direction := ScanDirection.UP
            forceNext := true
            orderedChanelIndex := 0
            scanningPeak := true
            peakChannelIndex := 0
            peaks := [0, 0, 0, 0] }, ?_, rfl, rfl⟩
  exact reachable_of_runEvents 8 80 [Event.tick 90, Event.buttonChange true false false] _ rfl

theorem onTick_flags_exclusive (N T : Nat) (s : AutoState) (r : Nat)
    (h : ¬ (s.scanning = true ∧ s.scanningPeak = true)) :
    ¬ ((onTick N T s r).1.scanning = true ∧ (onTick N T s r).1.scanningPeak = true) := by
  unfold onTick
  dsimp only
  split_ifs <;> dsimp only <;> simp_all

theorem reachableNoPeakPress_runTicks (N T : Nat) (rs : List Nat) :
    ∀ s : AutoState, ReachableNoPeakPress N T s →
      ReachableNoPeakPress N T (runTicks N T s rs) := by
  induction rs with
  | nil => intro s hs; exact hs
  | cons r rs ih =>
    intro s hs
    exact ih _ (ReachableNoPeakPress.next s (Event.tick r) hs rfl)

/-- C6 (amended): in every state reachable from the initial state by ticks and
button-change events, as long as UP and DOWN are not pressed while a peak search
is in progress, the Scanning flag and the Scanning-Peak flag are never both
true. -/
theorem flags_exclusive_without_press_during_peak (N T : Nat) (s : AutoState)
    (hr : ReachableNoPeakPress N T s) :
    ¬ (s.scanning = true ∧ s.scanningPeak = true) := by
  induction hr with
  | start => simp [initialState]
  | next s e _ hquiet ih =>
    cases e with
    | tick r => exact onTick_flags_exclusive N T s r ih
    | buttonChange up down mode =>
      simp only [pressDuringPeak, Bool.and_eq_false_imp, Bool.or_eq_false_iff] at hquiet
      simp only [step]
      unfold onButtonChange
      cases up <;> cases down <;> cases mode <;> simp_all

theorem flags_exclusive_without_press_during_peak_witness :
    ReachableNoPeakPress 8 80
        (step 8 80 (runTicks 8 80 initialState [90, 30, 31, 32, 33, 99])
          (Event.buttonChange true false false))
      ∧ ¬ ((step 8 80 (runTicks 8 80 initialState [90, 30, 31, 32, 33, 99])
              (Event.buttonChange true false false)).scanning = true
            ∧ (step 8 80 (runTicks 8 80 initialState [90, 30, 31, 32, 33, 99])
                (Event.buttonChange true false false)).scanningPeak = true) :=
  ⟨ReachableNoPeakPress.next _ (Event.buttonChange true false false)
      (reachableNoPeakPress_runTicks 8 80 [90, 30, 31, 32, 33, 99] initialState
        ReachableNoPeakPress.start) rfl,
    flags_exclusive_without_press_during_peak 8 80 _
      (ReachableNoPeakPress.next _ (Event.buttonChange true false false)
        (reachableNoPeakPress_runTicks 8 80 [90, 30, 31, 32, 33, 99] initialState
          ReachableNoPeakPress.start) rfl)⟩

/-! ## The ordered index stays in range -/

theorem getD_set_ne (l : List Nat) : ∀ (i j v : Nat), i ≠ j →
    (l.set j v).getD i 0 = l.getD i 0 := by
  induction l with
  | nil => intro i j v _; rfl
  | cons a l ih =>
    intro i j v h
    cases j with
    | zero =>
      cases i with
      | zero => exact absurd rfl h
      | succ i => rfl
    | succ j =>
      cases i with
      | zero => rfl
      | succ i =>
        simp only [List.set_cons_succ, List.getD_cons_succ]
        exact ih i j v (fun e => h (by rw [e]))

theorem getD_set_zero (l : List Nat) : ∀ (i j : Nat), l.getD i 0 = 0 →
    (l.set j 0).getD i 0 = 0 := by
  induction l with
  | nil => intro i j _; rfl
  | cons a l ih =>
    intro i j h
    cases j with
    | zero =>
      cases i with
      | zero => rfl
      | succ i => exact h
    | succ j =>
      cases i with
      | zero => exact h
      | succ i =>
        simp only [List.set_cons_succ, List.getD_cons_succ] at h ⊢
        exact ih i j h

theorem getD_set_self_zero (l : List Nat) : ∀ (i : Nat), (l.set i 0).getD i 0 = 0 := by
  induction l with
  | nil => intro i; rfl
  | cons a l ih =>
    intro i
    cases i with
    | zero => rfl
    | succ i =>
      simp only [List.set_cons_succ, List.getD_cons_succ]
      exact ih i

theorem clearPeaks_getD (l : List Nat) (i : Nat) (hi : i < PEAK_LOOKAHEAD) :
    (clearPeaks l).getD i 0 = 0 := by
  have h : clearPeaks l = (((l.set 0 0).set 1 0).set 2 0).set 3 0 := rfl
  rw [h]
  unfold PEAK_LOOKAHEAD at hi
  interval_cases i
  · exact getD_set_zero _ _ _ (getD_set_zero _ _ _ (getD_set_zero _ _ _ (getD_set_self_zero _ _)))
  · exact getD_set_zero _ _ _ (getD_set_zero _ _ _ (getD_set_self_zero _ _))
  · exact getD_set_zero _ _ _ (getD_set_self_zero _ _)
  · exact getD_set_self_zero _ _

theorem largestPeakIndex_le (b : List Nat) (j : Nat)
    (hz : ∀ i, i < PEAK_LOOKAHEAD → j < i → b.getD i 0 = 0) :
    largestPeakIndex b ≤ j := by
  obtain ⟨hk, _, hlt⟩ := largestPeakIndex_isFirstMax b
  by_contra hgt
  have hjk : j < largestPeakIndex b := Nat.lt_of_not_le hgt
  have h0 := hlt 0 (by omega)
  rw [hz _ hk hjk] at h0
  exact Nat.not_lt_zero _ h0

theorem u8_lt (z : Int) : u8 z < 256 := by
  unfold u8
  omega

theorem largestPeakIndex_storePeak_le (l : List Nat) (j v : Nat)
    (hz : ∀ i, i < PEAK_LOOKAHEAD → j ≤ i → l.getD i 0 = 0) :
    largestPeakIndex (storePeak l j v) ≤ j := by
  unfold storePeak
  split_ifs with hj
  · apply largestPeakIndex_le
    intro i hi hji
    rw [getD_set_ne _ _ _ _ (Nat.ne_of_gt hji)]
    exact hz i hi (Nat.le_of_lt hji)
  · have hk := (largestPeakIndex_isFirstMax l).1
    omega

theorem onTick_locked (N T : Nat) (s : AutoState) (r : Nat)
    (hscan : s.scanning = false) (hpeak : s.scanningPeak = false) :
    onTick N T s r = (s, [Call.waitForStableRssi, Call.needUpdate]) := by
  unfold onTick
  simp [hscan, hpeak]

theorem onTick_peakInv (N T : Nat) (s : AutoState) (r : Nat) (hinv : PeakInv N s) :
    PeakInv N (onTick N T s r).1 := by
  obtain ⟨hi, hpk⟩ := hinv
  have hN1 : 1 ≤ N := by omega
  cases hpeak : s.scanningPeak with
  | true =>
    by_cases hconc : u8 ((s.peakChannelIndex : Int) - s.orderedChanelIndex) ≥ PEAK_LOOKAHEAD
        ∨ u8 ((s.peakChannelIndex : Int) + 1) ≥ N
    · -- the search concludes
      rw [onTick_conclude N T s r hpeak hconc]
      refine ⟨?_, fun h => by simp at h⟩
      dsimp only
      rcases Nat.lt_or_ge 255 N with hbig | hsmall
      · have := u8_lt ((s.orderedChanelIndex : Int) + (largestPeakIndex
          (storePeak s.peaks (u8 ((s.peakChannelIndex : Int) - s.orderedChanelIndex))
            (u8 r)) : Nat))
        omega
      · obtain ⟨hle, hlt, hz⟩ := hpk hpeak hsmall
        have hoff : u8 ((s.peakChannelIndex : Int) - s.orderedChanelIndex)
            = s.peakChannelIndex - s.orderedChanelIndex := by
          unfold u8; omega
        have hk : largestPeakIndex
            (storePeak s.peaks (u8 ((s.peakChannelIndex : Int) - s.orderedChanelIndex)) (u8 r))
            ≤ s.peakChannelIndex - s.orderedChanelIndex := by
          have h := largestPeakIndex_storePeak_le s.peaks
            (u8 ((s.peakChannelIndex : Int) - s.orderedChanelIndex)) (u8 r)
            (fun i hi4 hji => hz i hi4 (by omega))
          omega
        generalize largestPeakIndex _ = k at hk
        unfold u8
        omega
    · -- the search continues
      rw [onTick_continue N T s r hpeak hconc]
      refine ⟨hi, fun _ hsmall => ?_⟩
      obtain ⟨hle, hlt, hz⟩ := hpk hpeak hsmall
      have hoff : u8 ((s.peakChannelIndex : Int) - s.orderedChanelIndex)
          = s.peakChannelIndex - s.orderedChanelIndex := by
        unfold u8; omega
      have hnext : u8 ((s.peakChannelIndex : Int) + 1) = s.peakChannelIndex + 1 := by
        unfold u8; omega
      have hnot : ¬ u8 ((s.peakChannelIndex : Int) + 1) ≥ N := fun h => hconc (Or.inr h)
      refine ⟨?_, ?_, ?_⟩
      · dsimp only
        omega
      · dsimp only
        omega
      · intro i hi4 hji
        dsimp only at hji ⊢
        rw [hoff, getD_set_ne _ _ _ _ (by omega)]
        exact hz i hi4 (by omega)
  | false =>
    cases hscan : s.scanning with
    | false =>
      rw [onTick_locked N T s r hscan hpeak]
      exact ⟨hi, hpk⟩
    | true =>
      by_cases hlock : s.forceNext = false ∧ T ≤ r
      · -- entry into the peak search
        rw [onTick_lock N T s r hscan hpeak hlock.1 hlock.2]
        exact ⟨hi, fun _ _ => ⟨Nat.le_refl _, hi, fun i hi4 _ => clearPeaks_getD _ i hi4⟩⟩
      · -- sweep step
        have hno : s.forceNext = true ∨ r < T := by
          cases hf : s.forceNext with
          | true => exact Or.inl rfl
          | false => exact Or.inr (Nat.lt_of_not_le (fun h => hlock ⟨hf, h⟩))
        rw [onTick_sweep N T s r hscan hpeak hno]
        exact ⟨sweepIndex_lt N hN1 _ _, fun h => by rw [hpeak] at h; cases h⟩

theorem onButtonChange_peakInv (N : Nat) (s : AutoState) (up down mode : Bool)
    (hinv : PeakInv N s) : PeakInv N (onButtonChange s up down mode).1 := by
  unfold onButtonChange
  split_ifs <;> exact hinv

theorem reachableFrom_peakInv (N T : Nat) (s0 s : AutoState) (h0 : PeakInv N s0)
    (hr : ReachableFrom N T s0 s) : PeakInv N s := by
  induction hr with
  | start => exact h0
  | next s e _ ih =>
    cases e with
    | tick r => exact onTick_peakInv N T s r ih
    | buttonChange up down mode => exact onButtonChange_peakInv N s up down mode ih

/-- C8: in a Sweeping state with Force-Next set (index below `N`, table size
`N ≤ 254` or `N = 256`), a tick with any reading `r`, at or above the threshold
included, moves the Ordered Channel Index one position in the current Direction
modulo `N`, tunes to it, stays out of the peak search and clears Force-Next.  On
the following tick a reading at or above the threshold enters the peak search on
that index, and a reading below it steps one position further. -/
theorem force_next_steps_once (N T : Nat) (hN : N ≤ 254 ∨ N = 256) (s : AutoState)
    (hscan : s.scanning = true) (hpeak : s.scanningPeak = false)
    (hforce : s.forceNext = true) (hi : s.orderedChanelIndex < N) (r r2 : Nat) :
    onTick N T s r
        = ({ s with
                    orderedChanelIndex := nextModN N s.direction s.orderedChanelIndex
                    forceNext := false },
                [Call.waitForStableRssi,
                 Call.setChannel (nextModN N s.direction s.orderedChanelIndex),
                 Call.needUpdate])
      ∧ (T ≤ r2 →
          onTick N T { s with
                         orderedChanelIndex := nextModN N s.direction s.orderedChanelIndex
                         forceNext := false } r2
            = ({ s with
                        orderedChanelIndex := nextModN N s.direction s.orderedChanelIndex
                        forceNext := false
                        scanning := false
                        scanningPeak := true
                        peakChannelIndex := nextModN N s.direction s.orderedChanelIndex
                        peaks := clearPeaks s.peaks },
                    [Call.waitForStableRssi, Call.needUpdate]))
      ∧ (r2 < T →
          onTick N T { s with
                         orderedChanelIndex := nextModN N s.direction s.orderedChanelIndex
                         forceNext := false } r2
            = ({ s with
                        orderedChanelIndex :=
                          nextModN N s.direction
                            (nextModN N s.direction s.orderedChanelIndex)
                        forceNext := false },
                    [Call.waitForStableRssi,
                     Call.setChannel
                       (nextModN N s.direction (nextModN N s.direction s.orderedChanelIndex)),
                     Call.needUpdate])) := by
  have hN1 : 1 ≤ N := by omega
  have hstep := sweepIndex_eq_nextModN N s.orderedChanelIndex hN hi s.direction
  have hlt : nextModN N s.direction s.orderedChanelIndex < N :=
    hstep ▸ sweepIndex_lt N hN1 s.direction s.orderedChanelIndex
  refine ⟨?_, ?_, ?_⟩
  · rw [onTick_sweep N T s r hscan hpeak (Or.inl hforce), hstep]
  · intro hr
    exact onTick_lock N T
      { s with
          orderedChanelIndex := nextModN N s.direction s.orderedChanelIndex
          forceNext := false } r2 hscan hpeak rfl hr
  · intro hr
    have h2 := onTick_sweep N T
      { s with
          orderedChanelIndex := nextModN N s.direction s.orderedChanelIndex
          forceNext := false } r2 hscan hpeak (Or.inr hr)
    dsimp only at h2
    rw [sweepIndex_eq_nextModN N _ hN hlt s.direction] at h2
    exact h2

theorem force_next_steps_once_witness :
    (8 ≤ 254 ∨ 8 = 256)
      ∧ (onButtonChange initialState false true false).1.scanning = true
      ∧ (onButtonChange initialState false true false).1.scanningPeak = false
      ∧ (onButtonChange initialState false true false).1.forceNext = true
      ∧ (onButtonChange initialState false true false).1.orderedChanelIndex < 8
      ∧ onTick 8 80 (onButtonChange initialState false true false).1 95
          = ({ (onButtonChange initialState false true false).1 with
                      orderedChanelIndex := 7
                      forceNext := false },
                  [Call.waitForStableRssi, Call.setChannel 7, Call.needUpdate]) :=
  ⟨by decide, rfl, rfl, rfl, by decide,
    (force_next_steps_once 8 80 (by decide) (onButtonChange initialState false true false).1
      rfl rfl rfl (by decide) 95 95).1⟩

/-! ## Table exhaustion -/

theorem largestPeakIndex_two (a b : Nat) :
    largestPeakIndex [a, b, 0, 0] = if b > a then 1 else 0 := by
  unfold largestPeakIndex
  rw [largestPeakLoop_unfold]
  unfold peakLoopBody
  simp only [List.getD_cons_zero, List.getD_cons_succ]
  split_ifs <;> first | rfl | omega

/-- C9 (amended): for every `N` with `2 ≤ N ≤ 255`, a peak search entered at
start index `N - 2` runs for two ticks with no button input: the first stores
reading `a` at offset 0 and tunes to `N - 1`, the second stores reading `b` at
offset 1, brings `peakChannelIndex` to `N` and concludes; the resulting Ordered
Channel Index is `N - 2 + 1` if `b > a` and `N - 2` otherwise. -/
theorem table_exhaustion_two_samples (N T : Nat) (hN2 : 2 ≤ N) (hN : N ≤ 255)
    (s0 : AutoState) (a b : Nat) (ha : a < 256) (hb : b < 256) :
    onTick N T (peakEntry s0 (N - 2)) a
        = ({ peakEntry s0 (N - 2) with
                    peakChannelIndex := N - 1
                    peaks := [a, 0, 0, 0] },
                [Call.waitForStableRssi, Call.setChannel (N - 1), Call.needUpdate])
      ∧ u8 (((N - 1 : Nat) : Int) - ((N - 2 : Nat) : Int)) = 1
      ∧ onTick N T { peakEntry s0 (N - 2) with
                       peakChannelIndex := N - 1
                       peaks := [a, 0, 0, 0] } b
        = ({ peakEntry s0 (N - 2) with
                    peakChannelIndex := N
                    peaks := [a, b, 0, 0]
                    orderedChanelIndex := if b > a then N - 2 + 1 else N - 2
                    scanningPeak := false },
                [Call.waitForStableRssi,
                 Call.setChannel (if b > a then N - 2 + 1 else N - 2),
                 Call.needUpdate]) := by
  have hoff0 : u8 (((N - 2 : Nat) : Int) - ((N - 2 : Nat) : Int)) = 0 := by unfold u8; omega
  have hp1 : u8 (((N - 2 : Nat) : Int) + 1) = N - 1 := by unfold u8; omega
  have hoff1 : u8 (((N - 1 : Nat) : Int) - ((N - 2 : Nat) : Int)) = 1 := by unfold u8; omega
  have hp2 : u8 (((N - 1 : Nat) : Int) + 1) = N := by unfold u8; omega
  have hua : u8 (a : Int) = a := by unfold u8; omega
  have hub : u8 (b : Int) = b := by unfold u8; omega
  have hk : u8 (((N - 2 : Nat) : Int) + ((if b > a then 1 else 0 : Nat) : Int))
      = if b > a then N - 2 + 1 else N - 2 := by
    split_ifs <;> (unfold u8; omega)
  have hnc : ¬ (u8 (((peakEntry s0 (N - 2)).peakChannelIndex : Int)
        - (peakEntry s0 (N - 2)).orderedChanelIndex) ≥ PEAK_LOOKAHEAD
      ∨ u8 (((peakEntry s0 (N - 2)).peakChannelIndex : Int) + 1) ≥ N) := by
    show ¬ (u8 (((N - 2 : Nat) : Int) - ((N - 2 : Nat) : Int)) ≥ PEAK_LOOKAHEAD
      ∨ u8 (((N - 2 : Nat) : Int) + 1) ≥ N)
    rw [hoff0, hp1]
    unfold PEAK_LOOKAHEAD
    omega
  have hconc : u8 (((N - 1 : Nat) : Int) - ((N - 2 : Nat) : Int)) ≥ PEAK_LOOKAHEAD
      ∨ u8 (((N - 1 : Nat) : Int) + 1) ≥ N := Or.inr (by rw [hp2])
  refine ⟨?_, hoff1, ?_⟩
  · rw [onTick_continue N T (peakEntry s0 (N - 2)) a (by rfl) hnc]
    show ({ peakEntry s0 (N - 2) with
              peaks := (List.replicate PEAK_LOOKAHEAD 0).set
                (u8 (((N - 2 : Nat) : Int) - ((N - 2 : Nat) : Int))) (u8 a)
              peakChannelIndex := u8 (((N - 2 : Nat) : Int) + 1) },
           [Call.waitForStableRssi, Call.setChannel (u8 (((N - 2 : Nat) : Int) + 1)),
            Call.needUpdate]) = _
    rw [hoff0, hp1, hua]
    rfl
  · rw [onTick_conclude N T _ b (by rfl) hconc]
    dsimp only [peakEntry]
    rw [hoff1, hp2, hub]
    have hsp : storePeak [a, 0, 0, 0] 1 b = [a, b, 0, 0] := rfl
    have hsa : storeActions 1 b = [] := rfl
    rw [hsp, hsa, largestPeakIndex_two, hk]
    rfl

/-- C9 fails for `N = 256`: the search entered at start index 254 stores its
second sample at offset 1, the 8-bit `peakChannelIndex` wraps from 255 to 0,
which is not `>= 256`, and the search is still running after the second
tick. -/
theorem table_exhaustion_not_reached_for_256 :
    runTicks 256 80 (peakEntry initialState 254) [90, 95]
      = { scanning := false
          direction := ScanDirection.UP
          forceNext := false
          orderedChanelIndex := 254
          scanningPeak := true
          peakChannelIndex := 0
          peaks := [90, 95, 0, 0] } := by
  rfl

theorem table_exhaustion_two_samples_witness :
    2 ≤ 8 ∧ 8 ≤ 255 ∧ 90 < 256 ∧ 95 < 256
      ∧ (onTick 8 80 (peakEntry initialState (8 - 2)) 90
            = ({ peakEntry initialState (8 - 2) with
                        peakChannelIndex := 8 - 1
                        peaks := [90, 0, 0, 0] },
                    [Call.waitForStableRssi, Call.setChannel (8 - 1), Call.needUpdate])
          ∧ u8 (((8 - 1 : Nat) : Int) - ((8 - 2 : Nat) : Int)) = 1
          ∧ onTick 8 80 { peakEntry initialState (8 - 2) with
                            peakChannelIndex := 8 - 1
                            peaks := [90, 0, 0, 0] } 95
            = ({ peakEntry initialState (8 - 2) with
                        peakChannelIndex := 8
                        peaks := [90, 95, 0, 0]
                        orderedChanelIndex := if 95 > 90 then 8 - 2 + 1 else 8 - 2
                        scanningPeak := false },
                    [Call.waitForStableRssi,
                     Call.setChannel (if 95 > 90 then 8 - 2 + 1 else 8 - 2),
                     Call.needUpdate])) :=
  ⟨by decide, by decide, by decide, by decide,
    table_exhaustion_two_samples 8 80 (by decide) (by decide) initialState 90 95 (by decide)
      (by decide)⟩

/-! ## The button-change handler -/

/-- C10: the handler takes exactly one branch, with priority UP over DOWN over
MODE.  With UP pressed, whatever DOWN and MODE are, the result is Scanning =
true, Force-Next = true, Direction = UP and no mode switch; with UP released and
DOWN pressed it is Scanning = true, Force-Next = true, Direction = DOWN and no
mode switch; with only MODE pressed the switch to the menu state is requested
and the state, Scanning, Force-Next and Direction included, is unchanged. -/
theorem button_priority (s : AutoState) (down mode : Bool) :
    onButtonChange s true down mode
        = ({ s with scanning := true, forceNext := true, direction := ScanDirection.UP }, [])
      ∧ onButtonChange s false true mode
        = ({ s with scanning := true, forceNext := true, direction := ScanDirection.DOWN }, [])
      ∧ onButtonChange s false false true = (s, [Call.switchStateMenu]) :=
  ⟨rfl, rfl, rfl⟩

/-! ## The end-to-end scenario -/

/-- C11 (the code departs from it): with `CHANNELS_SIZE = 8`, threshold 80 and
the readings 10, 20, 95, 50, 60, 70, 30, 40 on the ordered indices 0 to 7, the
first three ticks step 0 -> 1 -> 2 and enter the peak search at start index 2,
and the next four ticks sample the indices 2, 3, 4, 5 into the buffer.  The
search is then still running with the receiver tuned to index 6: the tick at
offset 3 does not conclude.  The eighth tick samples index 6, stores that fifth
sample at offset 4, outside the buffer, and only then concludes, on index 2. -/
theorem scenario_not_locked_after_four_samples :
    runTuned 8 80 scenarioReading 2 initialState 0
        = ({ initialState with orderedChanelIndex := 2 }, 2)
      ∧ runTuned 8 80 scenarioReading 3 initialState 0 = (peakEntry initialState 2, 2)
      ∧ runTuned 8 80 scenarioReading 7 initialState 0
        = ({ scanning := false
             direction := ScanDirection.UP
             forceNext := false
             orderedChanelIndex := 2
             scanningPeak := true
             peakChannelIndex := 6
             peaks := [95, 50, 60, 70] }, 6)
      ∧ onTick 8 80 (runTuned 8 80 scenarioReading 7 initialState 0).1 (scenarioReading 6)
        = ({ scanning := false
             direction := ScanDirection.UP
             forceNext := false
             orderedChanelIndex := 2
             scanningPeak := false
             peakChannelIndex := 7
             peaks := [95, 50, 60, 70] },
           [Call.waitForStableRssi, Call.outOfBoundsStore 4 30, Call.setChannel 2,
            Call.needUpdate])
      ∧ runTuned 8 80 scenarioReading 8 initialState 0
        = ({ scanning := false
             direction := ScanDirection.UP
             forceNext := false
             orderedChanelIndex := 2
             scanningPeak := false
             peakChannelIndex := 7
             peaks := [95, 50, 60, 70] }, 2) := by
  refine ⟨rfl, rfl, rfl, rfl, rfl⟩

/-! ## Entry into the peak search -/

theorem clearPeaks_eq_zeros (l : List Nat) (h : l.length = PEAK_LOOKAHEAD) :
    clearPeaks l = [0, 0, 0, 0] := by
  match l, h with
  | [_, _, _, _], _ => rfl

/-- C12: in a Sweeping state (Scanning set, Scanning-Peak clear) with Force-Next
clear, a tick whose reading is at or above the threshold sets Scanning false
and Scanning-Peak true, sets `peakChannelIndex` to `orderedChanelIndex`, resets
every one of the `PEAK_LOOKAHEAD` buffer slots to 0, leaves
`orderedChanelIndex`, Direction and Force-Next as they were, and makes no
receiver tune call. -/
theorem peak_search_entry (N T : Nat) (s : AutoState) (r : Nat)
    (hscan : s.scanning = true) (hpeak : s.scanningPeak = false)
    (hforce : s.forceNext = false) (hr : T ≤ r) :
    ∃ (t : AutoState) (cs : List Call),
      onTick N T s r = (t, cs)
        ∧ t.scanning = false
        ∧ t.scanningPeak = true
        ∧ t.peakChannelIndex = s.orderedChanelIndex
        ∧ (∀ i, i < PEAK_LOOKAHEAD → t.peaks.getD i 0 = 0)
        ∧ (s.peaks.length = PEAK_LOOKAHEAD → t.peaks = [0, 0, 0, 0])
        ∧ t.orderedChanelIndex = s.orderedChanelIndex
        ∧ t.direction = s.direction
        ∧ t.forceNext = s.forceNext
        ∧ tuneCalls cs = [] :=
  ⟨_, _, onTick_lock N T s r hscan hpeak hforce hr, rfl, rfl, rfl,
    fun i hi => clearPeaks_getD s.peaks i hi, fun h => clearPeaks_eq_zeros s.peaks h,
    rfl, rfl, rfl, rfl⟩

theorem peak_search_entry_witness :
    ({ initialState with peaks := [7, 8, 9, 6] } : AutoState).scanning = true
      ∧ ({ initialState with peaks := [7, 8, 9, 6] } : AutoState).scanningPeak = false
      ∧ ({ initialState with peaks := [7, 8, 9, 6] } : AutoState).forceNext = false
      ∧ 80 ≤ 95
      ∧ ∃ (t : AutoState) (cs : List Call),
          onTick 8 80 { initialState with peaks := [7, 8, 9, 6] } 95 = (t, cs)
            ∧ t.scanning = false
            ∧ t.scanningPeak = true
            ∧ t.peakChannelIndex
                = ({ initialState with peaks := [7, 8, 9, 6] } : AutoState).orderedChanelIndex
            ∧ (∀ i, i < PEAK_LOOKAHEAD → t.peaks.getD i 0 = 0)
            ∧ (({ initialState with peaks := [7, 8, 9, 6] } : AutoState).peaks.length
                  = PEAK_LOOKAHEAD → t.peaks = [0, 0, 0, 0])
            ∧ t.orderedChanelIndex
                = ({ initialState with peaks := [7, 8, 9, 6] } : AutoState).orderedChanelIndex
            ∧ t.direction = ({ initialState with peaks := [7, 8, 9, 6] } : AutoState).direction
            ∧ t.forceNext = ({ initialState with peaks := [7, 8, 9, 6] } : AutoState).forceNext
            ∧ tuneCalls cs = [] :=
  ⟨rfl, rfl, rfl, by decide,
    peak_search_entry 8 80 { initialState with peaks := [7, 8, 9, 6] } 95 rfl rfl rfl
      (by decide)⟩

/-! ## Arithmetic of the sweep step -/

/-- C13 fails for `CHANNELS_SIZE = 255`: a Sweeping tick with Direction UP on
index 254 (reading 10, threshold 80) leaves the index at 254 and tunes to 254,
while `(254 + 1) mod 255 = 0`. -/
theorem sweep_step_up_from_254_of_255 :
    onTick 255 80 { initialState with orderedChanelIndex := 254 } 10
        = ({ initialState with orderedChanelIndex := 254 },
                [Call.waitForStableRssi, Call.setChannel 254, Call.needUpdate])
      ∧ nextModN 255 ScanDirection.UP 254 = 0 := by
  refine ⟨rfl, rfl⟩

/-- C13 (amended): for every `N` with `1 ≤ N ≤ 254` or `N = 256`, every index
`i < N` and either Direction, a Sweeping tick that does not lock (Force-Next set,
or reading below the threshold) sets the Ordered Channel Index to `i + 1`
modulo `N` going UP and to `i - 1` modulo `N` going DOWN (so 0 going DOWN gives
`N - 1` and `N - 1` going UP gives 0), tunes the receiver to exactly that index
and clears Force-Next. -/
theorem sweep_step_arithmetic (N T : Nat) (hN : N ≤ 254 ∨ N = 256) (s : AutoState) (r : Nat)
    (hscan : s.scanning = true) (hpeak : s.scanningPeak = false)
    (hno : s.forceNext = true ∨ r < T) (hi : s.orderedChanelIndex < N) :
    ∃ (t : AutoState) (cs : List Call),
      onTick N T s r = (t, cs)
        ∧ t.orderedChanelIndex
            = (match s.direction with
               | ScanDirection.UP => (s.orderedChanelIndex + 1) % N
               | ScanDirection.DOWN => (s.orderedChanelIndex + (N - 1)) % N)
        ∧ tuneCalls cs = [t.orderedChanelIndex]
        ∧ t.forceNext = false
        ∧ (s.direction = ScanDirection.DOWN → s.orderedChanelIndex = 0 →
            t.orderedChanelIndex = N - 1)
        ∧ (s.direction = ScanDirection.UP → s.orderedChanelIndex = N - 1 →
            t.orderedChanelIndex = 0) := by
  have hN1 : 1 ≤ N := by omega
  have hstep := sweepIndex_eq_nextModN N s.orderedChanelIndex hN hi s.direction
  refine ⟨_, _, onTick_sweep N T s r hscan hpeak hno, ?_, rfl, rfl, ?_, ?_⟩
  · dsimp only
    rw [hstep]
    rfl
  · intro hd h0
    dsimp only
    rw [hstep, hd, h0]
    show (0 + (N - 1)) % N = N - 1
    rw [Nat.zero_add]
    exact Nat.mod_eq_of_lt (by omega)
  · intro hd h0
    dsimp only
    rw [hstep, hd, h0]
    show (N - 1 + 1) % N = 0
    rw [Nat.sub_add_cancel hN1, Nat.mod_self]

theorem sweep_step_arithmetic_witness :
    (40 ≤ 254 ∨ 40 = 256)
      ∧ (onButtonChange initialState false true false).1.scanning = true
      ∧ (onButtonChange initialState false true false).1.scanningPeak = false
      ∧ ((onButtonChange initialState false true false).1.forceNext = true ∨ 10 < 80)
      ∧ (onButtonChange initialState false true false).1.orderedChanelIndex < 40
      ∧ ∃ (t : AutoState) (cs : List Call),
          onTick 40 80 (onButtonChange initialState false true false).1 10 = (t, cs)
            ∧ t.orderedChanelIndex
                = (match (onButtonChange initialState false true false).1.direction with
                   | ScanDirection.UP =>
                     ((onButtonChange initialState false true false).1.orderedChanelIndex + 1) % 40
                   | ScanDirection.DOWN =>
                     ((onButtonChange initialState false true false).1.orderedChanelIndex
                        + (40 - 1)) % 40)
            ∧ tuneCalls cs = [t.orderedChanelIndex]
            ∧ t.forceNext = false
            ∧ ((onButtonChange initialState false true false).1.direction = ScanDirection.DOWN →
                (onButtonChange initialState false true false).1.orderedChanelIndex = 0 →
                t.orderedChanelIndex = 40 - 1)
            ∧ ((onButtonChange initialState false true false).1.direction = ScanDirection.UP →
                (onButtonChange initialState false true false).1.orderedChanelIndex = 40 - 1 →
                t.orderedChanelIndex = 0) :=
  ⟨by decide, rfl, rfl, Or.inl rfl, by decide,
    sweep_step_arithmetic 40 80 (by decide) (onButtonChange initialState false true false).1 10
      rfl rfl (Or.inl rfl) (by decide)⟩

/-! ## A peak-search tick that goes on -/

/-- C14: in a PeakSearching state (8-bit indices and reading, buffer of
`PEAK_LOOKAHEAD` slots) with start index `s = orderedChanelIndex` and offset
`j = peakChannelIndex - s`, a tick on which the search does not conclude (the
test of line 50 is false) stores the reading at buffer offset `j` and leaves
the other slots as they were, increments `peakChannelIndex` by one, tunes the
receiver to that next index, which is `s + j + 1`, and leaves
`orderedChanelIndex`, the Scanning-Peak flag and the remaining fields
unchanged. -/
theorem peak_tick_continues (N T : Nat) (s : AutoState) (r : Nat)
    (hpeak : s.scanningPeak = true)
    (hoci : s.orderedChanelIndex < 256) (hpci : s.peakChannelIndex < 256) (hr : r < 256)
    (hlen : s.peaks.length = PEAK_LOOKAHEAD)
    (hnc : ¬ (u8 ((s.peakChannelIndex : Int) - s.orderedChanelIndex) ≥ PEAK_LOOKAHEAD
              ∨ u8 ((s.peakChannelIndex : Int) + 1) ≥ N)) :
    ∃ (t : AutoState) (cs : List Call),
      onTick N T s r = (t, cs)
        ∧ t.peaks.getD (u8 ((s.peakChannelIndex : Int) - s.orderedChanelIndex)) 0 = r
        ∧ (∀ i, i ≠ u8 ((s.peakChannelIndex : Int) - s.orderedChanelIndex) →
            t.peaks.getD i 0 = s.peaks.getD i 0)
        ∧ t.peakChannelIndex = u8 ((s.peakChannelIndex : Int) + 1)
        ∧ (s.peakChannelIndex < 255 → t.peakChannelIndex = s.peakChannelIndex + 1)
        ∧ tuneCalls cs = [t.peakChannelIndex]
        ∧ t.peakChannelIndex
            = u8 ((s.orderedChanelIndex : Int)
                + (u8 ((s.peakChannelIndex : Int) - s.orderedChanelIndex) : Nat) + 1)
        ∧ (s.orderedChanelIndex + u8 ((s.peakChannelIndex : Int) - s.orderedChanelIndex) + 1
              < 256 →
            t.peakChannelIndex
              = s.orderedChanelIndex + u8 ((s.peakChannelIndex : Int) - s.orderedChanelIndex)
                  + 1)
        ∧ t.orderedChanelIndex = s.orderedChanelIndex
        ∧ t.scanningPeak = true
        ∧ t.scanning = s.scanning ∧ t.direction = s.direction ∧ t.forceNext = s.forceNext := by
  have hj : u8 ((s.peakChannelIndex : Int) - s.orderedChanelIndex) < PEAK_LOOKAHEAD := by
    by_contra h
    exact hnc (Or.inl (Nat.le_of_not_lt h))
  have hur : u8 (r : Int) = r := by unfold u8; omega
  have htick := onTick_continue N T s r hpeak hnc
  refine ⟨_, _, htick, ?_, ?_, rfl, ?_, rfl, ?_, ?_, rfl, hpeak, rfl, rfl, rfl⟩
  · dsimp only
    rw [getD_set_self _ _ _ (by rw [hlen]; exact hj), hur]
  · intro i hi
    exact getD_set_ne _ _ _ _ hi
  · intro h
    dsimp only
    unfold u8
    omega
  · dsimp only
    unfold u8
    omega
  · dsimp only
    unfold u8
    omega

theorem peak_tick_continues_witness :
    (peakEntry initialState 2).scanningPeak = true
      ∧ (peakEntry initialState 2).orderedChanelIndex < 256
      ∧ (peakEntry initialState 2).peakChannelIndex < 256
      ∧ 95 < 256
      ∧ (peakEntry initialState 2).peaks.length = PEAK_LOOKAHEAD
      ∧ ¬ (u8 (((peakEntry initialState 2).peakChannelIndex : Int)
                - (peakEntry initialState 2).orderedChanelIndex) ≥ PEAK_LOOKAHEAD
            ∨ u8 (((peakEntry initialState 2).peakChannelIndex : Int) + 1) ≥ 8)
      ∧ ∃ (t : AutoState) (cs : List Call),
          onTick 8 80 (peakEntry initialState 2) 95 = (t, cs)
            ∧ t.peaks.getD 0 0 = 95
            ∧ t.peakChannelIndex = 3
            ∧ tuneCalls cs = [3]
            ∧ t.orderedChanelIndex = 2
            ∧ t.scanningPeak = true := by
  refine ⟨rfl, by decide, by decide, by decide, rfl, by decide, ?_⟩
  obtain ⟨t, cs, h1, h2, _, h4, _, h6, _, _, h9, h10, _⟩ :=
    peak_tick_continues 8 80 (peakEntry initialState 2) 95 rfl (by decide) (by decide)
      (by decide) rfl (by decide)
  exact ⟨t, cs, h1, h2, h4, h6.trans (congrArg (fun x => [x]) h4), h9, h10⟩

/-! ## The locked state -/

theorem runTicks_locked (N T : Nat) (s : AutoState)
    (hscan : s.scanning = false) (hpeak : s.scanningPeak = false) (rs : List Nat) :
    runTicks N T s rs = s := by
  induction rs with
  | nil => rfl
  | cons r rs ih =>
    have h : onTick N T s r = (s, [Call.waitForStableRssi, Call.needUpdate]) := by
      unfold onTick
      simp [hscan, hpeak]
    simp only [runTicks, h]
    exact ih

/-- C15: in a state with both the Scanning and the Scanning-Peak flag false, a
tick with any reading returns the same state, every field unchanged, and makes
no receiver tune call; hence any number of ticks without button input leaves
the state, and the channel the receiver is on, as they were. -/
theorem locked_is_fixed_point (N T : Nat) (s : AutoState)
    (hscan : s.scanning = false) (hpeak : s.scanningPeak = false) (r : Nat) (rs : List Nat) :
    onTick N T s r = (s, [Call.waitForStableRssi, Call.needUpdate])
      ∧ tuneCalls [Call.waitForStableRssi, Call.needUpdate] = []
      ∧ runTicks N T s rs = s := by
  refine ⟨?_, rfl, runTicks_locked N T s hscan hpeak rs⟩
  unfold onTick
  simp [hscan, hpeak]

theorem locked_is_fixed_point_witness :
    ({ initialState with scanning := false, orderedChanelIndex := 5 } : AutoState).scanning
        = false
      ∧ ({ initialState with scanning := false, orderedChanelIndex := 5 } : AutoState).scanningPeak
        = false
      ∧ (onTick 8 80 { initialState with scanning := false, orderedChanelIndex := 5 } 95
            = ({ initialState with scanning := false, orderedChanelIndex := 5 },
                    [Call.waitForStableRssi, Call.needUpdate])
          ∧ tuneCalls [Call.waitForStableRssi, Call.needUpdate] = []
          ∧ runTicks 8 80 { initialState with scanning := false, orderedChanelIndex := 5 }
              [95, 10, 200]
            = { initialState with scanning := false, orderedChanelIndex := 5 }) :=
  ⟨rfl, rfl,
    locked_is_fixed_point 8 80 { initialState with scanning := false, orderedChanelIndex := 5 }
      rfl rfl 95 [95, 10, 200]⟩

/-! ## Arguments of the tune calls -/

theorem initialState_peakInv (N : Nat) (hN : 1 ≤ N) : PeakInv N initialState :=
  ⟨hN, fun h => by cases h⟩

theorem sweepIndex_down_up (N i : Nat) (hN : N ≤ 254 ∨ N = 256) (hi : i < N) :
    sweepIndex N ScanDirection.DOWN (sweepIndex N ScanDirection.UP i) = i := by
  have hN0 : 0 < N := by omega
  rw [sweepIndex_up N i hN hi, sweepIndex_down N _ hN (Nat.mod_lt _ hN0), Nat.mod_add_mod]
  have h : i + 1 + (N - 1) = i + N := by omega
  rw [h, Nat.add_mod_right]
  exact Nat.mod_eq_of_lt hi

theorem sweepIndex_up_down (N i : Nat) (hN : N ≤ 254 ∨ N = 256) (hi : i < N) :
    sweepIndex N ScanDirection.UP (sweepIndex N ScanDirection.DOWN i) = i := by
  have hN0 : 0 < N := by omega
  rw [sweepIndex_down N i hN hi, sweepIndex_up N _ hN (Nat.mod_lt _ hN0), Nat.mod_add_mod]
  have h : i + (N - 1) + 1 = i + N := by omega
  rw [h, Nat.add_mod_right]
  exact Nat.mod_eq_of_lt hi

/-- A press of UP or DOWN outside a peak search followed by a tick: the forced
sweep step. -/
theorem runEvents_forced_step (N T : Nat) (s : AutoState) (up down mode : Bool) (r : Nat)
    (es : List Event) (hpeak : s.scanningPeak = false) (hpress : up = true ∨ down = true) :
    runEvents N T s (Event.buttonChange up down mode :: Event.tick r :: es)
      = runEvents N T
          { s with
              scanning := true
              forceNext := false
              direction := if up then ScanDirection.UP else ScanDirection.DOWN
              orderedChanelIndex :=
                sweepIndex N (if up then ScanDirection.UP else ScanDirection.DOWN)
                  s.orderedChanelIndex }
          es := by
  have hbtn : (onButtonChange s up down mode).1
      = { s with
            scanning := true
            forceNext := true
            direction := if up then ScanDirection.UP else ScanDirection.DOWN } := by
    unfold onButtonChange
    rcases hpress with h | h
    · subst h; rfl
    · subst h; cases up <;> rfl
  have htick := onTick_sweep N T
    { s with
        scanning := true
        forceNext := true
        direction := if up then ScanDirection.UP else ScanDirection.DOWN } r rfl hpeak
    (Or.inl rfl)
  simp only [runEvents, step, hbtn, htick]

/-- C17 fails for `CHANNELS_SIZE = 255`: from index 254 a forced step UP stays
on 254 and the forced step DOWN after it goes to 253; from index 0 a forced step
DOWN goes to 254 and the forced step UP after it stays on 254. -/
theorem up_down_not_inverse_for_255 :
    (runEvents 255 80 { initialState with orderedChanelIndex := 254 }
        [Event.buttonChange true false false, Event.tick 10,
         Event.buttonChange false true false, Event.tick 10]).orderedChanelIndex
        = 253
      ∧ (runEvents 255 80 initialState
          [Event.buttonChange false true false, Event.tick 10,
           Event.buttonChange true false false, Event.tick 10]).orderedChanelIndex
        = 254 := by
  refine ⟨rfl, rfl⟩

/-- C17 (amended): for every `N` with `1 ≤ N ≤ 254` or `N = 256` and every
index `i < N`, outside a peak search a forced sweep step UP (UP pressed, then a
tick) followed by a forced sweep step DOWN (DOWN pressed, then a tick) brings
the Ordered Channel Index back to `i`, and so does DOWN followed by UP,
whatever the readings. -/
theorem up_down_steps_inverse (N T : Nat) (hN : N ≤ 254 ∨ N = 256) (s : AutoState)
    (hpeak : s.scanningPeak = false) (hi : s.orderedChanelIndex < N) (r1 r2 : Nat) :
    (∃ t : AutoState,
        runEvents N T s
            [Event.buttonChange true false false, Event.tick r1,
             Event.buttonChange false true false, Event.tick r2] = t
          ∧ t.orderedChanelIndex = s.orderedChanelIndex)
      ∧ (∃ t : AutoState,
          runEvents N T s
              [Event.buttonChange false true false, Event.tick r1,
               Event.buttonChange true false false, Event.tick r2] = t
            ∧ t.orderedChanelIndex = s.orderedChanelIndex)
      ∧ sweepIndex N ScanDirection.DOWN (sweepIndex N ScanDirection.UP s.orderedChanelIndex)
          = s.orderedChanelIndex
      ∧ sweepIndex N ScanDirection.UP (sweepIndex N ScanDirection.DOWN s.orderedChanelIndex)
          = s.orderedChanelIndex := by
  have hdu := sweepIndex_down_up N s.orderedChanelIndex hN hi
  have hud := sweepIndex_up_down N s.orderedChanelIndex hN hi
  refine ⟨?_, ?_, hdu, hud⟩
  · have h1 := runEvents_forced_step N T s true false false r1
      [Event.buttonChange false true false, Event.tick r2] hpeak (Or.inl rfl)
    have h2 := runEvents_forced_step N T
      { s with
          scanning := true
          forceNext := false
          direction := ScanDirection.UP
          orderedChanelIndex := sweepIndex N ScanDirection.UP s.orderedChanelIndex }
      false true false r2 [] hpeak (Or.inr rfl)
    exact ⟨_, h1.trans h2, hdu⟩
  · have h1 := runEvents_forced_step N T s false true false r1
      [Event.buttonChange true false false, Event.tick r2] hpeak (Or.inr rfl)
    have h2 := runEvents_forced_step N T
      { s with
          scanning := true
          forceNext := false
          direction := ScanDirection.DOWN
          orderedChanelIndex := sweepIndex N ScanDirection.DOWN s.orderedChanelIndex }
      true false false r2 [] hpeak (Or.inl rfl)
    exact ⟨_, h1.trans h2, hud⟩

theorem up_down_steps_inverse_witness :
    (40 ≤ 254 ∨ 40 = 256) ∧ initialState.scanningPeak = false
      ∧ initialState.orderedChanelIndex < 40
      ∧ ((∃ t : AutoState,
            runEvents 40 80 initialState
                [Event.buttonChange true false false, Event.tick 95,
                 Event.buttonChange false true false, Event.tick 10] = t
              ∧ t.orderedChanelIndex = initialState.orderedChanelIndex)
          ∧ (∃ t : AutoState,
              runEvents 40 80 initialState
                  [Event.buttonChange false true false, Event.tick 95,
                   Event.buttonChange true false false, Event.tick 10] = t
                ∧ t.orderedChanelIndex = initialState.orderedChanelIndex)
          ∧ sweepIndex 40 ScanDirection.DOWN
                (sweepIndex 40 ScanDirection.UP initialState.orderedChanelIndex)
              = initialState.orderedChanelIndex
          ∧ sweepIndex 40 ScanDirection.UP
                (sweepIndex 40 ScanDirection.DOWN initialState.orderedChanelIndex)
              = initialState.orderedChanelIndex) :=
  ⟨by decide, rfl, by decide,
    up_down_steps_inverse 40 80 (by decide) initialState rfl (by decide) 95 10⟩

/-! ## Frame of the button-change handler -/

/-- C18: for every state and every combination of the three buttons the handler
leaves `orderedChanelIndex`, the Scanning-Peak flag, `peakChannelIndex` and the
sample buffer unchanged and makes no receiver tune call; with none of UP, DOWN,
MODE pressed it leaves the whole state unchanged and requests no mode
switch. -/
theorem button_change_frame (s : AutoState) (up down mode : Bool) :
    (onButtonChange s up down mode).1.orderedChanelIndex = s.orderedChanelIndex
      ∧ (onButtonChange s up down mode).1.scanningPeak = s.scanningPeak
      ∧ (onButtonChange s up down mode).1.peakChannelIndex = s.peakChannelIndex
      ∧ (onButtonChange s up down mode).1.peaks = s.peaks
      ∧ tuneCalls (onButtonChange s up down mode).2 = []
      ∧ onButtonChange s false false false = (s, []) := by
  cases up <;> cases down <;> cases mode <;> exact ⟨rfl, rfl, rfl, rfl, rfl, rfl⟩

end StateAuto
